import Mathlib

/-
  Verification development for corbosiny/ComplexNetworksProject.

  Shallow embedding of src/src/GameEngine.py (class GameEngine): the directed
  network, infection/quarantine bookkeeping, per-message round processing,
  reward computation and the random-draw supports used by the engine.

  Modelling conventions:
  * networkx.DiGraph is embedded as a node list (insertion order) plus a
    finite set of directed edges; `DiGraph.neighbors` is the successor set.
  * networkx `remove_edge` raises NetworkXError when the edge is absent; it
    is embedded as an `Except`-returning operation.  `remove_edges_from`
    ignores missing edges and is total.
  * Python `random.randint(a, b)` draws uniformly from the inclusive range
    [a, b]; each call site is embedded as the `Finset` of its possible
    outcomes (the uniform support).  `random.choice(xs)` picks a uniform
    index below `xs.length`.
  * Python list `insert` clamps the position to the list length (an
    out-of-range position appends at the end); `pyListInsert` mirrors this.
  * Float arithmetic of `calculateInspectionChance` is idealised over ℝ.
  * Display-only state (matplotlib colour map, plotting) is omitted.
-/

namespace GameEngine

abbrev Node := String

/-- Modelled from the spec: the suspicion labels `NONE < LOW < MEDIUM < HIGH`
used by the Defender collaborator (`Defender.py` is not under `src/`; the
engine only compares labels for equality). -/
inductive Label
| NONE
| LOW
| MEDIUM
| HIGH
deriving DecidableEq, Repr

/-- Embedding of the `networkx.DiGraph` held by the engine: nodes in
insertion order, edges as a finite set of ordered pairs. -/
structure DiGraph where
  nodes : List Node
  edges : Finset (Node × Node)
deriving DecidableEq

/-- Embeds `graph.has_edge(a, b)`. -/
def DiGraph.hasEdge (g : DiGraph) (a b : Node) : Bool :=
  decide ((a, b) ∈ g.edges)

/-- Embeds `graph.neighbors(a)`: successor set of `a` in a directed graph. -/
def DiGraph.neighbors (g : DiGraph) (a : Node) : Finset Node :=
  (g.edges.filter (fun e => e.1 = a)).image (fun e => e.2)

/-- Embeds `graph.out_edges(a)`. -/
def DiGraph.outEdges (g : DiGraph) (a : Node) : Finset (Node × Node) :=
  g.edges.filter (fun e => e.1 = a)

/-- Embeds `graph.remove_edges_from(es)`: total, missing edges are ignored. -/
def DiGraph.removeEdgesFrom (g : DiGraph) (es : Finset (Node × Node)) : DiGraph :=
  { g with edges := g.edges \ es }

/-- Embeds `graph.remove_edge(a, b)`: raises `NetworkXError` when the edge is
absent, embedded as `Except.error`. -/
def DiGraph.removeEdge (g : DiGraph) (a b : Node) : Except String DiGraph :=
  if (a, b) ∈ g.edges then Except.ok { g with edges := g.edges.erase (a, b) }
  else Except.error "NetworkXError"

/-- Modelled from the spec: a `Message` carries `origin`, `destination`, a
malicious flag and an opaque payload (`Message.py` is not under `src/`; the
engine reads only these three fields). The payload is dropped. -/
structure Message where
  origin : Node
  destination : Node
  malicious : Bool
deriving DecidableEq, Repr

/-- Modelled from the spec: `Message.isMalicious()` returns the malicious flag
of the message. -/
def Message.isMalicious (m : Message) : Bool := m.malicious

/-- The mutable per-game state of the engine: `self.graph`,
`self.infectedNodes`, `self.quarantinedNodes`, `self.reachableNodes`
(the colour map is display-only and omitted). -/
structure GameState where
  graph : DiGraph
  infectedNodes : List Node
  quarantinedNodes : List Node
  reachableNodes : List Bool
deriving DecidableEq

/-- Embeds `GameEngine.isReachable`: false for infected nodes, else true iff some
infected node has `node` among its successors. -/
def isReachable (s : GameState) (node : Node) : Bool :=
  if node ∈ s.infectedNodes then false
  else s.infectedNodes.any (fun inf => decide (node ∈ s.graph.neighbors inf))

/-- Embeds `self.reachableNodes = [int(self.isReachable(node)) for node in self.graph.nodes()]`. -/
def recomputeReachable (s : GameState) : GameState :=
  { s with reachableNodes := s.graph.nodes.map (fun n => isReachable s n) }

/-- Embeds `GameEngine.gameOver`: `not any(self.reachableNodes)`. -/
def gameOver (s : GameState) : Bool :=
  ! s.reachableNodes.any id

/-- Embeds `GameEngine.infectNode`: append `destination` to `infectedNodes` unless
already present. -/
def infectNode (s : GameState) (destination : Node) : GameState :=
  if destination ∈ s.infectedNodes then s
  else { s with infectedNodes := s.infectedNodes ++ [destination] }

/-- Embeds `GameEngine.quarantineNode`: at HIGH severity record the origin in
`quarantinedNodes` (if absent) and remove all its outgoing edges; otherwise
(the engine only calls this with HIGH or MEDIUM) remove the single edge
`(origin, destination)`, which raises if the edge is absent. -/
def quarantineNode (s : GameState) (origin destination : Node) (label : Label) :
    Except String GameState :=
  if label = Label.HIGH then
    let s1 := if origin ∈ s.quarantinedNodes then s
              else { s with quarantinedNodes := s.quarantinedNodes ++ [origin] }
    Except.ok { s1 with graph := s1.graph.removeEdgesFrom (s1.graph.outEdges origin) }
  else
    match s.graph.removeEdge origin destination with
    | Except.ok g => Except.ok { s with graph := g }
    | Except.error e => Except.error e

/-- Embeds `GameEngine.calculateNodeInfectionReward`: 0 for an infected node, else
1 plus the number of its non-infected successors. -/
def calculateNodeInfectionReward (s : GameState) (node : Node) : ℕ :=
  if node ∈ s.infectedNodes then 0
  else 1 + ((s.graph.neighbors node).filter (fun nb => nb ∉ s.infectedNodes)).card

/-- Embeds `GameEngine.calculateScore`: the reward pair `(attackerReward,
defenderReward)`; the attacker entry is `none` for benign messages
(Python `None`). Python float division is embedded over ℚ. -/
def calculateScore (s : GameState) (m : Message) (label : Label) : Option ℚ × ℚ :=
  let attackerReward : ℚ := (calculateNodeInfectionReward s m.destination : ℚ)
  let defenderReward : ℚ := ((s.graph.neighbors m.destination).card : ℚ) + 1
  if m.isMalicious = true ∧ label = Label.HIGH then
    (some (-attackerReward), defenderReward)
  else if m.isMalicious = true ∧ label = Label.MEDIUM then
    (some (-attackerReward / 2), defenderReward)
  else if m.isMalicious = true then
    (some attackerReward, -defenderReward)
  else if label = Label.HIGH then
    (none, -defenderReward)
  else if label = Label.MEDIUM then
    (none, -defenderReward / 2)
  else
    (none, defenderReward)

/-- Embeds `GameEngine.updateNetwork`: quarantine on MEDIUM/HIGH labels, infect the
destination on an uncaught malicious message, then recompute the
reachability vector (colour-map update omitted as display-only). -/
def updateNetwork (s : GameState) (m : Message) (label : Label) :
    Except String GameState :=
  let step :=
    if label = Label.HIGH ∨ label = Label.MEDIUM then
      quarantineNode s m.origin m.destination label
    else if m.isMalicious = true then
      Except.ok (infectNode s m.destination)
    else
      Except.ok s
  match step with
  | Except.ok s1 => Except.ok (recomputeReachable s1)
  | Except.error e => Except.error e

/-- Transient state of one round of `GameEngine.runGame`: the game state
plus the training samples dispatched to the collaborators and
`self.lastAttackerScore`.  An attacker sample is
`(trafficInfo, actionIndex, reward)`; a defender sample is
`(message, label, reward)`. -/
structure RoundState where
  gs : GameState
  attackerSamples : List (List ℤ × ℕ × Option ℚ)
  defenderSamples : List (Message × Label × ℚ)
  lastAttackerScore : Option ℚ
deriving DecidableEq

/-- The label a message ends up with in `runGame`: `NONE` when the
inspection was skipped by the random draw, otherwise the Defender
result of Defender `inspect`. -/
def suspicionLabelOf (skip : Bool) (defenderLabel : Message → Label) (m : Message) : Label :=
  if skip then Label.NONE else defenderLabel m

/-- Embeds `if not skipped: self.defender.addTrainingPoint(message, suspicionLabel,
defenderReward)`. -/
def emitDefenderSample (skip : Bool) (m : Message) (label : Label) (dr : ℚ)
    (rs : RoundState) : RoundState :=
  if skip = false then
    { rs with defenderSamples := rs.defenderSamples ++ [(m, label, dr)] }
  else rs

/-- Embeds `if message.isMalicious(): self.attacker.addTrainingPoint(trafficInfo,
attackIndex, attackerReward); self.lastAttackerScore = attackerReward`. -/
def emitAttackerSample (ti : List ℤ) (attackIndex : ℕ) (m : Message) (ar : Option ℚ)
    (rs : RoundState) : RoundState :=
  if m.isMalicious = true then
    { rs with attackerSamples := rs.attackerSamples ++ [(ti, attackIndex, ar)],
              lastAttackerScore := ar }
  else rs

/-- One iteration of the inner loop of `GameEngine.runGame` on message `mp.1`
with inspection-skip draw `mp.2`: drop the message when its edge is gone,
otherwise score it (on the pre-update state `rs.gs`), update the network,
and emit the defender then attacker training samples. -/
def processMessage (ti : List ℤ) (attackIndex : ℕ) (defenderLabel : Message → Label)
    (rs : RoundState) (mp : Message × Bool) : Except String RoundState :=
  if rs.gs.graph.hasEdge mp.1.origin mp.1.destination = false then Except.ok rs
  else
    match updateNetwork rs.gs mp.1 (suspicionLabelOf mp.2 defenderLabel mp.1) with
    | Except.error e => Except.error e
    | Except.ok gs1 =>
      Except.ok
        (emitAttackerSample ti attackIndex mp.1
          (calculateScore rs.gs mp.1 (suspicionLabelOf mp.2 defenderLabel mp.1)).1
          (emitDefenderSample mp.2 mp.1 (suspicionLabelOf mp.2 defenderLabel mp.1)
            (calculateScore rs.gs mp.1 (suspicionLabelOf mp.2 defenderLabel mp.1)).2
            { rs with gs := gs1 }))

/-- The inner loop of `GameEngine.runGame` over the flattened queues
(messages paired with their inspection-skip draws), in processing order. -/
def processMessages (ti : List ℤ) (attackIndex : ℕ) (defenderLabel : Message → Label) :
    RoundState → List (Message × Bool) → Except String RoundState
  | rs, [] => Except.ok rs
  | rs, mp :: rest =>
    match processMessage ti attackIndex defenderLabel rs mp with
    | Except.error e => Except.error e
    | Except.ok rs1 => processMessages ti attackIndex defenderLabel rs1 rest

/-- One round of `GameEngine.runGame` in which `attacker.getAttack` returned
no attack message: `generateTrafficQueues` emits the zero-reward no-op
sample `(trafficInfo, OUTPUT_SIZE - 1, 0)` (`OUTPUT_SIZE` is modelled from
the spec as the attacker action-space size, its last index being the
reserved no-op action), `runGame` resets `lastAttackerScore = 0`, then the
queued messages are processed in order. -/
def runRoundNoAttack (outputSize : ℕ) (ti : List ℤ) (attackIndex : ℕ)
    (defenderLabel : Message → Label) (gs : GameState)
    (queues : List (List (Message × Bool))) : Except String RoundState :=
  let rs0 : RoundState :=
    { gs := gs
      attackerSamples := [(ti, outputSize - 1, some 0)]
      defenderSamples := []
      lastAttackerScore := some 0 }
  processMessages ti attackIndex defenderLabel rs0 queues.flatten

/-- Embeds `GameEngine.MAX_BACKGROUND_TRAFFIC_MESSAGES`. -/
def MAX_BACKGROUND_TRAFFIC_MESSAGES : ℕ := 30

/-- Support of `random.randint(1, GameEngine.MAX_BACKGROUND_TRAFFIC_MESSAGES)`:
the number of background messages drawn per round. -/
def numBackgroundDraws : Finset ℕ :=
  Finset.Icc 1 MAX_BACKGROUND_TRAFFIC_MESSAGES

/-- Support of `random.randint(1, datasetLength - 1)`: the dataset row
indices `generateBackgroundTraffic` can sample. -/
def rowIndexDraws (datasetLength : ℕ) : Finset ℕ :=
  Finset.Icc 1 (datasetLength - 1)

/-- Stated from the spec, for comparison with `rowIndexDraws`: the index set
of the whole dataset ("every dataset record is equally likely"). -/
def specRecordIndices (datasetLength : ℕ) : Finset ℕ :=
  Finset.range datasetLength

/-- Support of `random.randint(0, len(queue) + 1)`: the insertion positions
`generateTrafficQueues` can draw for the attack message. -/
def attackInsertDraws (queueLength : ℕ) : Finset ℕ :=
  Finset.Icc 0 (queueLength + 1)

/-- Stated from the spec, for comparison with `attackInsertDraws`: the range
`[0, queueLength]` over which the spec says the position is uniform. -/
def specInsertPositions (queueLength : ℕ) : Finset ℕ :=
  Finset.Icc 0 queueLength

/-- Python `list.insert(pos, a)` for non-negative `pos`: the position is
clamped to the list length (an out-of-range position appends). -/
def pyListInsert (l : List α) (pos : ℕ) (a : α) : List α :=
  l.take pos ++ a :: l.drop pos

/-- The index at which `pyListInsert` actually places the new element into a
list of length `queueLength`. -/
def insertEffectiveIndex (queueLength pos : ℕ) : ℕ :=
  min pos queueLength

/-- A background-dataset record as the engine reads it: only the malicious
flag matters to the embedding (the payload is opaque). -/
structure Row where
  malicious : Bool
deriving DecidableEq

/-- The random choices consumed for one background-traffic sample: the
dataset row index from `random.randint(1, len - 1)`, and the indices picked
by the two `random.choice` calls (origin among all nodes, destination among
the successors of the chosen origin). -/
structure BgDraw where
  rowIndex : ℕ
  originChoice : ℕ
  destChoice : ℕ

/-- One loop iteration of `GameEngine.generateBackgroundTraffic`: look up
the template row, override origin with the chosen node and destination with
a uniformly chosen successor of that origin; `random.choice([])` raises and
the bare `except: continue` discards the sample (`none`). -/
def bgMessageOfDraw (g : DiGraph) (dataset : List Row) (d : BgDraw) : Option Message :=
  match dataset[d.rowIndex]?, g.nodes[d.originChoice]? with
  | some row, some newOrigin =>
    match (g.nodes.filter (fun n => g.hasEdge newOrigin n))[d.destChoice]? with
    | some newDest => some { origin := newOrigin, destination := newDest, malicious := row.malicious }
    | none => none
  | _, _ => none

/-- Embeds `GameEngine.generateBackgroundTraffic` as a function of its random
draws: each draw yields at most one message (draws whose origin has no
outgoing edge are discarded). -/
def generateBackgroundTraffic (g : DiGraph) (dataset : List Row) (draws : List BgDraw) :
    List Message :=
  draws.filterMap (bgMessageOfDraw g dataset)

/-- Legality of one background draw with respect to the Python random
calls: the row index lies in the support of `random.randint(1, len - 1)`
and the origin choice indexes the node list. -/
def legalBgDraw (g : DiGraph) (datasetLength : ℕ) (d : BgDraw) : Prop :=
  d.rowIndex ∈ rowIndexDraws datasetLength ∧ d.originChoice < g.nodes.length

/-- Embeds `GameEngine.calculateInspectionChance`, float arithmetic idealised over
ℝ: `2.195 − σ(0.75·n) − σ(0.05·n)` with `σ(x) = 1/(1+exp(−x))`. -/
noncomputable def calculateInspectionChance (queueLength : ℝ) : ℝ :=
  2.195 - 1 / (1 + Real.exp (-(0.75) * queueLength))
        - 1 / (1 + Real.exp (-(0.05) * queueLength))

/-- Stated from the spec, for comparison with `calculateScore`: the reward
table of §4.5 with `A = infectionPotential(destination)` (the spec
definition of `infectionPotential` has the same defining clauses as
`calculateNodeInfectionReward` in the source) and `D = out-degree of destination plus 1`,
out-degree taken literally as the number of outgoing edges. -/
def specScoreTable (s : GameState) (m : Message) (label : Label) : Option ℚ × ℚ :=
  let A : ℚ := (calculateNodeInfectionReward s m.destination : ℚ)
  let D : ℚ := ((s.graph.outEdges m.destination).card : ℚ) + 1
  match m.malicious, label with
  | true, Label.HIGH => (some (-A), D)
  | true, Label.MEDIUM => (some (-A / 2), D)
  | true, Label.NONE => (some A, -D)
  | true, Label.LOW => (some A, -D)
  | false, Label.HIGH => (none, -D)
  | false, Label.MEDIUM => (none, -D / 2)
  | false, Label.NONE => (none, D)
  | false, Label.LOW => (none, D)

/-- Concrete three-node network for witnesses: edges A→B, A→C, B→C. -/
def exGraph : DiGraph :=
  { nodes := ["A", "B", "C"], edges := {("A", "B"), ("A", "C"), ("B", "C")} }

/-- Concrete game state on `exGraph` with node A infected. -/
def exState : GameState :=
  { graph := exGraph, infectedNodes := ["A"], quarantinedNodes := [], reachableNodes := [] }

/-- Concrete malicious message A→B. -/
def exMsgMal : Message := { origin := "A", destination := "B", malicious := true }

/-- Concrete benign message A→B. -/
def exMsgBen : Message := { origin := "A", destination := "B", malicious := false }

/-- Concrete round state on `exState` with empty sample lists. -/
def exRound : RoundState :=
  { gs := exState, attackerSamples := [], defenderSamples := [], lastAttackerScore := none }

/-- Concrete state with two nodes and no edges at all. -/
def exEmptyState : GameState :=
  { graph := { nodes := ["A", "B"], edges := ∅ }
    infectedNodes := [], quarantinedNodes := [], reachableNodes := [] }

/-- Concrete two-row background dataset: row 0 benign, row 1 malicious. -/
def exDataset : List Row := [{ malicious := false }, { malicious := true }]

/-- Concrete background draw: dataset row 1, origin choice 0, destination
choice 0. -/
def exDraw : BgDraw := { rowIndex := 1, originChoice := 0, destChoice := 0 }

/-- Constant defender policy used by concrete witnesses. -/
def exDl : Message → Label := fun _ => Label.LOW

/-- Extract the state of an `ok` result (default for the `error` case);
used only to name concrete witness values. -/
def okStateOr (e : Except String GameState) (dflt : GameState) : GameState :=
  match e with
  | Except.ok s => s
  | Except.error _ => dflt

/-- Extract the round state of an `ok` result (default for the `error`
case); used only to name concrete witness values. -/
def okRoundOr (e : Except String RoundState) (dflt : RoundState) : RoundState :=
  match e with
  | Except.ok rs => rs
  | Except.error _ => dflt

/-- Concrete result of a MEDIUM quarantine of edge A→B on `exState`. -/
def exQuarMedRes : GameState :=
  okStateOr (quarantineNode exState "A" "B" Label.MEDIUM) exState

/-- Concrete result of the network update for `exMsgMal` at label MEDIUM. -/
def exUpdMedRes : GameState :=
  okStateOr (updateNetwork exState exMsgMal Label.MEDIUM) exState

/-- Concrete result of one round step on `exRound` processing `exMsgMal`. -/
def exRunMalRes : RoundState :=
  okRoundOr (processMessages [] 0 exDl exRound [(exMsgMal, false)]) exRound

/-- Concrete result of `processMessage` on `exRound` and `exMsgMal`. -/
def exPmMalRes : RoundState :=
  okRoundOr (processMessage [] 0 exDl exRound (exMsgMal, false)) exRound

/-- Concrete result of a no-attack round over one benign message. -/
def exNoAtkBenRes : RoundState :=
  okRoundOr (runRoundNoAttack 5 [] 0 exDl exState [[(exMsgBen, false)]]) exRound

theorem mem_neighbors {g : DiGraph} {a b : Node} :
    b ∈ g.neighbors a ↔ (a, b) ∈ g.edges := by
  unfold DiGraph.neighbors
  simp only [Finset.mem_image, Finset.mem_filter, Prod.exists]
  constructor
  · rintro ⟨x, y, ⟨hmem, hx⟩, hy⟩
    subst hx
    subst hy
    exact hmem
  · intro h
    exact ⟨a, b, ⟨h, rfl⟩, rfl⟩

theorem mem_outEdges {g : DiGraph} {a : Node} {e : Node × Node} :
    e ∈ g.outEdges a ↔ e ∈ g.edges ∧ e.1 = a :=
  Finset.mem_filter

theorem neighbors_card_eq_outDegree (g : DiGraph) (a : Node) :
    (g.neighbors a).card = (g.outEdges a).card := by
  unfold DiGraph.neighbors DiGraph.outEdges
  apply Finset.card_image_of_injOn
  intro e he f hf hef
  rcases Finset.mem_filter.mp he with ⟨-, he1⟩
  rcases Finset.mem_filter.mp hf with ⟨-, hf1⟩
  exact Prod.ext (he1.trans hf1.symm) hef

theorem outEdges_removeEdgesFrom_self (g : DiGraph) (o : Node) :
    (g.removeEdgesFrom (g.outEdges o)).outEdges o = ∅ := by
  unfold DiGraph.removeEdgesFrom DiGraph.outEdges
  ext e
  simp only [Finset.mem_filter, Finset.mem_sdiff, Finset.not_mem_empty, iff_false]
  tauto

theorem quarantineNode_HIGH (s : GameState) (o d : Node) :
    quarantineNode s o d Label.HIGH =
      Except.ok
        { graph := s.graph.removeEdgesFrom (s.graph.outEdges o)
          infectedNodes := s.infectedNodes
          quarantinedNodes := if o ∈ s.quarantinedNodes then s.quarantinedNodes
                              else s.quarantinedNodes ++ [o]
          reachableNodes := s.reachableNodes } := by
  unfold quarantineNode
  rw [if_pos rfl]
  by_cases h : o ∈ s.quarantinedNodes
  · simp [h]
  · simp [h]

theorem quarantineNode_MEDIUM_ok (s : GameState) (o d : Node)
    (h : (o, d) ∈ s.graph.edges) :
    quarantineNode s o d Label.MEDIUM =
      Except.ok { s with graph := { s.graph with edges := s.graph.edges.erase (o, d) } } := by
  unfold quarantineNode DiGraph.removeEdge
  simp [h]

theorem quarantineNode_MEDIUM_missing (s : GameState) (o d : Node)
    (h : (o, d) ∉ s.graph.edges) :
    quarantineNode s o d Label.MEDIUM = Except.error "NetworkXError" := by
  unfold quarantineNode DiGraph.removeEdge
  simp [h]

/-- Claim C4: `isReachable(node)` is true iff `node` is not infected and
some infected node has an edge into it; in particular an infected node is
never reachable (when `node` is infected the right-hand side is false). -/
theorem isReachable_iff_direct_successor (s : GameState) (node : Node) :
    isReachable s node = true ↔
      node ∉ s.infectedNodes ∧ ∃ inf ∈ s.infectedNodes, (inf, node) ∈ s.graph.edges := by
  unfold isReachable
  by_cases h : node ∈ s.infectedNodes
  · simp [h]
  · simp [h, List.any_eq_true, mem_neighbors]

/-- Claim C2: quarantine at HIGH severity empties the outgoing
edge set of the origin and records the origin in `quarantinedNodes` exactly when absent,
while MEDIUM severity removes precisely the edge `(origin, destination)`
and keeps every other edge. -/
theorem quarantineNode_severity_semantics (s : GameState) (o d : Node)
    (hedge : (o, d) ∈ s.graph.edges) :
    (∃ s1, quarantineNode s o d Label.HIGH = Except.ok s1 ∧
        s1.graph.outEdges o = ∅ ∧ o ∈ s1.quarantinedNodes ∧
        (o ∈ s.quarantinedNodes → s1.quarantinedNodes = s.quarantinedNodes) ∧
        (o ∉ s.quarantinedNodes → s1.quarantinedNodes = s.quarantinedNodes ++ [o])) ∧
    (∃ s2, quarantineNode s o d Label.MEDIUM = Except.ok s2 ∧
        ∀ e, e ∈ s2.graph.edges ↔ e ∈ s.graph.edges ∧ e ≠ (o, d)) := by
  constructor
  · refine ⟨_, quarantineNode_HIGH s o d, outEdges_removeEdgesFrom_self s.graph o, ?_, ?_, ?_⟩
    · by_cases h : o ∈ s.quarantinedNodes
      · simp [h]
      · simp [h]
    · intro h
      simp [h]
    · intro h
      simp [h]
  · refine ⟨_, quarantineNode_MEDIUM_ok s o d hedge, ?_⟩
    intro e
    simp [Finset.mem_erase, and_comm]

/-- Witness for claim C2 at the concrete state `exState` and edge A→B. -/
theorem quarantineNode_severity_semantics_witness :
    (("A", "B") ∈ exState.graph.edges) ∧
    ((∃ s1, quarantineNode exState "A" "B" Label.HIGH = Except.ok s1 ∧
        s1.graph.outEdges "A" = ∅ ∧ "A" ∈ s1.quarantinedNodes ∧
        ("A" ∈ exState.quarantinedNodes → s1.quarantinedNodes = exState.quarantinedNodes) ∧
        ("A" ∉ exState.quarantinedNodes →
          s1.quarantinedNodes = exState.quarantinedNodes ++ ["A"])) ∧
    (∃ s2, quarantineNode exState "A" "B" Label.MEDIUM = Except.ok s2 ∧
        ∀ e, e ∈ s2.graph.edges ↔ e ∈ exState.graph.edges ∧ e ≠ ("A", "B"))) :=
  ⟨by decide, quarantineNode_severity_semantics exState "A" "B" (by decide)⟩

/-- Counterexample for claim C7 as stated: MEDIUM-severity quarantine of
the absent edge A→B raises (networkx `remove_edge` is fatal on a missing
edge) instead of being a no-op. -/
theorem quarantineNode_missing_edge_cex :
    quarantineNode exEmptyState "A" "B" Label.MEDIUM = Except.error "NetworkXError" := by
  rfl

/-- Claim C7 (amended): HIGH-severity quarantine of a node whose outgoing
edges are already gone completes without error and leaves the graph
unchanged, but MEDIUM-severity quarantine of a missing edge raises a
`NetworkXError` (it is not a no-op). -/
theorem quarantineNode_missing_edge_amended (s : GameState) (o d : Node)
    (hout : s.graph.outEdges o = ∅) (hmiss : (o, d) ∉ s.graph.edges) :
    (∃ s1, quarantineNode s o d Label.HIGH = Except.ok s1 ∧ s1.graph = s.graph) ∧
    quarantineNode s o d Label.MEDIUM = Except.error "NetworkXError" := by
  constructor
  · refine ⟨_, quarantineNode_HIGH s o d, ?_⟩
    simp [DiGraph.removeEdgesFrom, hout]
  · exact quarantineNode_MEDIUM_missing s o d hmiss

theorem emitDefenderSample_gs (skip : Bool) (m : Message) (label : Label) (dr : ℚ)
    (rs : RoundState) : (emitDefenderSample skip m label dr rs).gs = rs.gs := by
  unfold emitDefenderSample
  split <;> rfl

theorem emitDefenderSample_attacker (skip : Bool) (m : Message) (label : Label) (dr : ℚ)
    (rs : RoundState) :
    (emitDefenderSample skip m label dr rs).attackerSamples = rs.attackerSamples := by
  unfold emitDefenderSample
  split <;> rfl

theorem emitDefenderSample_last (skip : Bool) (m : Message) (label : Label) (dr : ℚ)
    (rs : RoundState) :
    (emitDefenderSample skip m label dr rs).lastAttackerScore = rs.lastAttackerScore := by
  unfold emitDefenderSample
  split <;> rfl

theorem emitAttackerSample_gs (ti : List ℤ) (ai : ℕ) (m : Message) (ar : Option ℚ)
    (rs : RoundState) : (emitAttackerSample ti ai m ar rs).gs = rs.gs := by
  unfold emitAttackerSample
  split <;> rfl

theorem emitAttackerSample_malicious (ti : List ℤ) (ai : ℕ) (m : Message) (ar : Option ℚ)
    (rs : RoundState) (h : m.isMalicious = true) :
    (emitAttackerSample ti ai m ar rs).attackerSamples = rs.attackerSamples ++ [(ti, ai, ar)] ∧
    (emitAttackerSample ti ai m ar rs).lastAttackerScore = ar := by
  unfold emitAttackerSample
  rw [if_pos h]
  exact ⟨rfl, rfl⟩

theorem emitAttackerSample_benign (ti : List ℤ) (ai : ℕ) (m : Message) (ar : Option ℚ)
    (rs : RoundState) (h : ¬ m.isMalicious = true) :
    emitAttackerSample ti ai m ar rs = rs := by
  unfold emitAttackerSample
  rw [if_neg h]

theorem infectNode_mono (s : GameState) (d : Node) :
    s.infectedNodes ⊆ (infectNode s d).infectedNodes ∧
    (infectNode s d).graph = s.graph ∧
    (infectNode s d).quarantinedNodes = s.quarantinedNodes := by
  unfold infectNode
  by_cases h : d ∈ s.infectedNodes
  · simp [h]
  · simp [h]

theorem infectNode_idem (s : GameState) (d : Node) (h : d ∈ s.infectedNodes) :
    infectNode s d = s := by
  unfold infectNode
  simp [h]

theorem recomputeReachable_fields (s : GameState) :
    (recomputeReachable s).infectedNodes = s.infectedNodes ∧
    (recomputeReachable s).quarantinedNodes = s.quarantinedNodes ∧
    (recomputeReachable s).graph = s.graph :=
  ⟨rfl, rfl, rfl⟩

theorem quarantineNode_mono (s : GameState) (o d : Node) (l : Label) (s1 : GameState)
    (h : quarantineNode s o d l = Except.ok s1) :
    s1.infectedNodes = s.infectedNodes ∧
    s.quarantinedNodes ⊆ s1.quarantinedNodes ∧
    s1.graph.edges ⊆ s.graph.edges := by
  by_cases hl : l = Label.HIGH
  · subst hl
    rw [quarantineNode_HIGH] at h
    injection h with h1
    subst h1
    refine ⟨rfl, ?_, Finset.sdiff_subset⟩
    by_cases hq : o ∈ s.quarantinedNodes
    · simp [hq]
    · simp [hq]
  · unfold quarantineNode DiGraph.removeEdge at h
    rw [if_neg hl] at h
    by_cases he : (o, d) ∈ s.graph.edges
    · rw [if_pos he] at h
      injection h with h1
      subst h1
      exact ⟨rfl, List.Subset.refl _, Finset.erase_subset _ _⟩
    · rw [if_neg he] at h
      cases h

theorem updateNetwork_mono (s : GameState) (m : Message) (l : Label) (s1 : GameState)
    (h : updateNetwork s m l = Except.ok s1) :
    s.infectedNodes ⊆ s1.infectedNodes ∧
    s.quarantinedNodes ⊆ s1.quarantinedNodes ∧
    s1.graph.edges ⊆ s.graph.edges := by
  unfold updateNetwork at h
  by_cases hl : l = Label.HIGH ∨ l = Label.MEDIUM
  · rw [if_pos hl] at h
    cases hq : quarantineNode s m.origin m.destination l with
    | error e => rw [hq] at h; cases h
    | ok s2 =>
      rw [hq] at h
      injection h with h1
      subst h1
      obtain ⟨h2, h3, h4⟩ := quarantineNode_mono s m.origin m.destination l s2 hq
      simp only [recomputeReachable]
      exact ⟨by rw [h2]; exact List.Subset.refl _, h3, h4⟩
  · rw [if_neg hl] at h
    by_cases hm : m.isMalicious = true
    · rw [if_pos hm] at h
      injection h with h1
      subst h1
      obtain ⟨h2, h3, h4⟩ := infectNode_mono s m.destination
      simp only [recomputeReachable]
      exact ⟨h2, by rw [h4]; exact List.Subset.refl _, by rw [h3]⟩
    · rw [if_neg hm] at h
      injection h with h1
      subst h1
      simp only [recomputeReachable]
      exact ⟨List.Subset.refl _, List.Subset.refl _, Finset.Subset.refl _⟩

theorem processMessage_mono (ti : List ℤ) (ai : ℕ) (dl : Message → Label)
    (rs : RoundState) (mp : Message × Bool) (rs1 : RoundState)
    (h : processMessage ti ai dl rs mp = Except.ok rs1) :
    rs.gs.infectedNodes ⊆ rs1.gs.infectedNodes ∧
    rs.gs.quarantinedNodes ⊆ rs1.gs.quarantinedNodes ∧
    rs1.gs.graph.edges ⊆ rs.gs.graph.edges := by
  unfold processMessage at h
  by_cases hedge : rs.gs.graph.hasEdge mp.1.origin mp.1.destination = false
  · rw [if_pos hedge] at h
    injection h with h1
    subst h1
    exact ⟨List.Subset.refl _, List.Subset.refl _, Finset.Subset.refl _⟩
  · rw [if_neg hedge] at h
    cases hu : updateNetwork rs.gs mp.1 (suspicionLabelOf mp.2 dl mp.1) with
    | error e => rw [hu] at h; cases h
    | ok gs1 =>
      rw [hu] at h
      injection h with h1
      subst h1
      rw [emitAttackerSample_gs, emitDefenderSample_gs]
      exact updateNetwork_mono rs.gs mp.1 (suspicionLabelOf mp.2 dl mp.1) gs1 hu

theorem processMessages_mono (ti : List ℤ) (ai : ℕ) (dl : Message → Label) :
    ∀ (msgs : List (Message × Bool)) (rs rs1 : RoundState),
      processMessages ti ai dl rs msgs = Except.ok rs1 →
      rs.gs.infectedNodes ⊆ rs1.gs.infectedNodes ∧
      rs.gs.quarantinedNodes ⊆ rs1.gs.quarantinedNodes ∧
      rs1.gs.graph.edges ⊆ rs.gs.graph.edges := by
  intro msgs
  induction msgs with
  | nil =>
    intro rs rs1 h
    unfold processMessages at h
    injection h with h1
    subst h1
    exact ⟨List.Subset.refl _, List.Subset.refl _, Finset.Subset.refl _⟩
  | cons mp rest ih =>
    intro rs rs1 h
    unfold processMessages at h
    cases hp : processMessage ti ai dl rs mp with
    | error e => rw [hp] at h; cases h
    | ok rsm =>
      rw [hp] at h
      obtain ⟨h1, h2, h3⟩ := processMessage_mono ti ai dl rs mp rsm hp
      obtain ⟨h4, h5, h6⟩ := ih rsm rs1 h
      exact ⟨h1.trans h4, h2.trans h5, h6.trans h3⟩

/-- Claim C3: over infect, quarantine, per-message network update and whole
rounds, `infectedNodes` and `quarantinedNodes` never lose members (and
infect is idempotent) while the edge set never gains an edge. -/
theorem gameState_monotone (s : GameState) (d0 o d : Node) (l : Label) (m : Message)
    (sq su : GameState) (ti : List ℤ) (ai : ℕ) (dl : Message → Label)
    (rs rs1 : RoundState) (msgs : List (Message × Bool))
    (hq : quarantineNode s o d l = Except.ok sq)
    (hu : updateNetwork s m l = Except.ok su)
    (hp : processMessages ti ai dl rs msgs = Except.ok rs1) :
    (s.infectedNodes ⊆ (infectNode s d0).infectedNodes ∧
      (d0 ∈ s.infectedNodes → infectNode s d0 = s) ∧
      (infectNode s d0).graph = s.graph ∧
      (infectNode s d0).quarantinedNodes = s.quarantinedNodes) ∧
    (sq.infectedNodes = s.infectedNodes ∧
      s.quarantinedNodes ⊆ sq.quarantinedNodes ∧
      sq.graph.edges ⊆ s.graph.edges) ∧
    (s.infectedNodes ⊆ su.infectedNodes ∧
      s.quarantinedNodes ⊆ su.quarantinedNodes ∧
      su.graph.edges ⊆ s.graph.edges) ∧
    (rs.gs.infectedNodes ⊆ rs1.gs.infectedNodes ∧
      rs.gs.quarantinedNodes ⊆ rs1.gs.quarantinedNodes ∧
      rs1.gs.graph.edges ⊆ rs.gs.graph.edges) := by
  obtain ⟨h1, h2, h3⟩ := infectNode_mono s d0
  exact ⟨⟨h1, infectNode_idem s d0, h2, h3⟩,
    quarantineNode_mono s o d l sq hq,
    updateNetwork_mono s m l su hu,
    processMessages_mono ti ai dl msgs rs rs1 hp⟩

/-- Witness for claim C3: a MEDIUM quarantine, a MEDIUM network update and
a one-message round on the concrete state `exState`. -/
theorem gameState_monotone_witness :
    (quarantineNode exState "A" "B" Label.MEDIUM = Except.ok exQuarMedRes ∧
     updateNetwork exState exMsgMal Label.MEDIUM = Except.ok exUpdMedRes ∧
     processMessages [] 0 exDl exRound [(exMsgMal, false)] = Except.ok exRunMalRes) ∧
    ((exState.infectedNodes ⊆ (infectNode exState "C").infectedNodes ∧
      ("C" ∈ exState.infectedNodes → infectNode exState "C" = exState) ∧
      (infectNode exState "C").graph = exState.graph ∧
      (infectNode exState "C").quarantinedNodes = exState.quarantinedNodes) ∧
    (exQuarMedRes.infectedNodes = exState.infectedNodes ∧
      exState.quarantinedNodes ⊆ exQuarMedRes.quarantinedNodes ∧
      exQuarMedRes.graph.edges ⊆ exState.graph.edges) ∧
    (exState.infectedNodes ⊆ exUpdMedRes.infectedNodes ∧
      exState.quarantinedNodes ⊆ exUpdMedRes.quarantinedNodes ∧
      exUpdMedRes.graph.edges ⊆ exState.graph.edges) ∧
    (exRound.gs.infectedNodes ⊆ exRunMalRes.gs.infectedNodes ∧
      exRound.gs.quarantinedNodes ⊆ exRunMalRes.gs.quarantinedNodes ∧
      exRunMalRes.gs.graph.edges ⊆ exRound.gs.graph.edges)) :=
  ⟨⟨rfl, rfl, rfl⟩,
    gameState_monotone exState "C" "A" "B" Label.MEDIUM exMsgMal exQuarMedRes exUpdMedRes
      [] 0 exDl exRound exRunMalRes [(exMsgMal, false)] rfl rfl rfl⟩

/-- Witness for claim C7 (amended) at the edgeless concrete state. -/
theorem quarantineNode_missing_edge_amended_witness :
    (exEmptyState.graph.outEdges "A" = ∅ ∧ ("A", "B") ∉ exEmptyState.graph.edges) ∧
    ((∃ s1, quarantineNode exEmptyState "A" "B" Label.HIGH = Except.ok s1 ∧
        s1.graph = exEmptyState.graph) ∧
    quarantineNode exEmptyState "A" "B" Label.MEDIUM = Except.error "NetworkXError") :=
  ⟨⟨by decide, by decide⟩,
    quarantineNode_missing_edge_amended exEmptyState "A" "B" (by decide) (by decide)⟩

theorem updateNetwork_ok (s : GameState) (m : Message) (l : Label)
    (hedge : s.graph.hasEdge m.origin m.destination = true) :
    ∃ s1, updateNetwork s m l = Except.ok s1 := by
  unfold updateNetwork
  by_cases hl : l = Label.HIGH ∨ l = Label.MEDIUM
  · rw [if_pos hl]
    rcases hl with hl | hl
    · subst hl
      rw [quarantineNode_HIGH]
      exact ⟨_, rfl⟩
    · subst hl
      have he : (m.origin, m.destination) ∈ s.graph.edges := of_decide_eq_true hedge
      rw [quarantineNode_MEDIUM_ok s m.origin m.destination he]
      exact ⟨_, rfl⟩
  · rw [if_neg hl]
    by_cases hm : m.isMalicious = true
    · rw [if_pos hm]
      exact ⟨_, rfl⟩
    · rw [if_neg hm]
      exact ⟨_, rfl⟩

theorem processMessage_ok (ti : List ℤ) (ai : ℕ) (dl : Message → Label)
    (rs : RoundState) (mp : Message × Bool) :
    ∃ rs1, processMessage ti ai dl rs mp = Except.ok rs1 := by
  unfold processMessage
  by_cases hedge : rs.gs.graph.hasEdge mp.1.origin mp.1.destination = false
  · rw [if_pos hedge]
    exact ⟨rs, rfl⟩
  · rw [if_neg hedge]
    have hedge1 : rs.gs.graph.hasEdge mp.1.origin mp.1.destination = true := by
      cases hcase : rs.gs.graph.hasEdge mp.1.origin mp.1.destination
      · exact absurd hcase hedge
      · rfl
    obtain ⟨s1, hs1⟩ := updateNetwork_ok rs.gs mp.1 (suspicionLabelOf mp.2 dl mp.1) hedge1
    rw [hs1]
    exact ⟨_, rfl⟩

theorem processMessages_ok (ti : List ℤ) (ai : ℕ) (dl : Message → Label) :
    ∀ (msgs : List (Message × Bool)) (rs : RoundState),
      ∃ rs1, processMessages ti ai dl rs msgs = Except.ok rs1 := by
  intro msgs
  induction msgs with
  | nil =>
    intro rs
    exact ⟨rs, rfl⟩
  | cons mp rest ih =>
    intro rs
    obtain ⟨rsm, hm⟩ := processMessage_ok ti ai dl rs mp
    obtain ⟨rs1, h1⟩ := ih rsm
    refine ⟨rs1, ?_⟩
    unfold processMessages
    rw [hm]
    exact h1

theorem processMessage_malicious (ti : List ℤ) (ai : ℕ) (dl : Message → Label)
    (rs : RoundState) (mp : Message × Bool) (rs1 : RoundState)
    (hmal : mp.1.isMalicious = true)
    (hedge : rs.gs.graph.hasEdge mp.1.origin mp.1.destination = true)
    (h : processMessage ti ai dl rs mp = Except.ok rs1) :
    rs1.attackerSamples = rs.attackerSamples ++
      [(ti, ai, (calculateScore rs.gs mp.1 (suspicionLabelOf mp.2 dl mp.1)).1)] ∧
    rs1.lastAttackerScore = (calculateScore rs.gs mp.1 (suspicionLabelOf mp.2 dl mp.1)).1 := by
  unfold processMessage at h
  rw [if_neg (by simp [hedge])] at h
  cases hu : updateNetwork rs.gs mp.1 (suspicionLabelOf mp.2 dl mp.1) with
  | error e => rw [hu] at h; cases h
  | ok gs1 =>
    rw [hu] at h
    injection h with h1
    subst h1
    obtain ⟨ha, hl⟩ := emitAttackerSample_malicious ti ai mp.1
      (calculateScore rs.gs mp.1 (suspicionLabelOf mp.2 dl mp.1)).1
      (emitDefenderSample mp.2 mp.1 (suspicionLabelOf mp.2 dl mp.1)
        (calculateScore rs.gs mp.1 (suspicionLabelOf mp.2 dl mp.1)).2
        { rs with gs := gs1 }) hmal
    rw [ha, hl, emitDefenderSample_attacker]
    exact ⟨rfl, rfl⟩

theorem processMessage_benign (ti : List ℤ) (ai : ℕ) (dl : Message → Label)
    (rs : RoundState) (mp : Message × Bool) (rs1 : RoundState)
    (hben : ¬ mp.1.isMalicious = true)
    (h : processMessage ti ai dl rs mp = Except.ok rs1) :
    rs1.attackerSamples = rs.attackerSamples ∧
    rs1.lastAttackerScore = rs.lastAttackerScore := by
  unfold processMessage at h
  by_cases hedge : rs.gs.graph.hasEdge mp.1.origin mp.1.destination = false
  · rw [if_pos hedge] at h
    injection h with h1
    subst h1
    exact ⟨rfl, rfl⟩
  · rw [if_neg hedge] at h
    cases hu : updateNetwork rs.gs mp.1 (suspicionLabelOf mp.2 dl mp.1) with
    | error e => rw [hu] at h; cases h
    | ok gs1 =>
      rw [hu] at h
      injection h with h1
      subst h1
      rw [emitAttackerSample_benign _ _ _ _ _ hben]
      rw [emitDefenderSample_attacker, emitDefenderSample_last]
      exact ⟨rfl, rfl⟩

theorem processMessage_attribution (ti : List ℤ) (ai : ℕ) (dl : Message → Label)
    (rs : RoundState) (mp : Message × Bool) (rs1 : RoundState)
    (h : processMessage ti ai dl rs mp = Except.ok rs1) :
    ∃ tail, rs1.attackerSamples = rs.attackerSamples ++ tail ∧
      ∀ x ∈ tail, x.1 = ti ∧ x.2.1 = ai := by
  unfold processMessage at h
  by_cases hedge : rs.gs.graph.hasEdge mp.1.origin mp.1.destination = false
  · rw [if_pos hedge] at h
    injection h with h1
    subst h1
    exact ⟨[], by simp, by simp⟩
  · rw [if_neg hedge] at h
    cases hu : updateNetwork rs.gs mp.1 (suspicionLabelOf mp.2 dl mp.1) with
    | error e => rw [hu] at h; cases h
    | ok gs1 =>
      rw [hu] at h
      injection h with h1
      subst h1
      by_cases hm : mp.1.isMalicious = true
      · obtain ⟨ha, -⟩ := emitAttackerSample_malicious ti ai mp.1
          (calculateScore rs.gs mp.1 (suspicionLabelOf mp.2 dl mp.1)).1
          (emitDefenderSample mp.2 mp.1 (suspicionLabelOf mp.2 dl mp.1)
            (calculateScore rs.gs mp.1 (suspicionLabelOf mp.2 dl mp.1)).2
            { rs with gs := gs1 }) hm
        refine ⟨[(ti, ai, (calculateScore rs.gs mp.1 (suspicionLabelOf mp.2 dl mp.1)).1)], ?_, ?_⟩
        · rw [ha, emitDefenderSample_attacker]
        · intro x hx
          rw [List.mem_singleton] at hx
          subst hx
          exact ⟨rfl, rfl⟩
      · rw [emitAttackerSample_benign _ _ _ _ _ hm]
        refine ⟨[], ?_, by simp⟩
        rw [emitDefenderSample_attacker]
        simp

theorem processMessages_attribution (ti : List ℤ) (ai : ℕ) (dl : Message → Label) :
    ∀ (msgs : List (Message × Bool)) (rs rs1 : RoundState),
      processMessages ti ai dl rs msgs = Except.ok rs1 →
      ∃ tail, rs1.attackerSamples = rs.attackerSamples ++ tail ∧
        ∀ x ∈ tail, x.1 = ti ∧ x.2.1 = ai := by
  intro msgs
  induction msgs with
  | nil =>
    intro rs rs1 h
    injection h with h1
    subst h1
    exact ⟨[], by simp, by simp⟩
  | cons mp rest ih =>
    intro rs rs1 h
    unfold processMessages at h
    cases hp : processMessage ti ai dl rs mp with
    | error e => rw [hp] at h; cases h
    | ok rsm =>
      rw [hp] at h
      obtain ⟨t1, ht1, ha1⟩ := processMessage_attribution ti ai dl rs mp rsm hp
      obtain ⟨t2, ht2, ha2⟩ := ih rsm rs1 h
      refine ⟨t1 ++ t2, ?_, ?_⟩
      · rw [ht2, ht1, List.append_assoc]
      · intro x hx
        rcases List.mem_append.mp hx with hx1 | hx2
        · exact ha1 x hx1
        · exact ha2 x hx2

theorem processMessages_benign (ti : List ℤ) (ai : ℕ) (dl : Message → Label) :
    ∀ (msgs : List (Message × Bool)) (rs rs1 : RoundState),
      (∀ mp ∈ msgs, mp.1.isMalicious = false) →
      processMessages ti ai dl rs msgs = Except.ok rs1 →
      rs1.attackerSamples = rs.attackerSamples := by
  intro msgs
  induction msgs with
  | nil =>
    intro rs rs1 _ h
    injection h with h1
    subst h1
    rfl
  | cons mp rest ih =>
    intro rs rs1 hben h
    unfold processMessages at h
    cases hp : processMessage ti ai dl rs mp with
    | error e => rw [hp] at h; cases h
    | ok rsm =>
      rw [hp] at h
      have hb : ¬ mp.1.isMalicious = true := by
        rw [hben mp (List.mem_cons_self mp rest)]
        exact Bool.false_ne_true
      obtain ⟨h1, -⟩ := processMessage_benign ti ai dl rs mp rsm hb hp
      have h2 := ih rsm rs1 (fun x hx => hben x (List.mem_cons_of_mem mp hx)) h
      rw [h2, h1]

/-- Claim C1: `calculateScore` returns exactly the reward table of the spec,
with `A` the infection potential of the destination and `D` the
out-degree of the destination plus one, and in the round loop the scores in an
emitted attacker sample are computed on the pre-update state `rs.gs`,
before the quarantine/infection mutation for that message is applied. -/
theorem calculateScore_reward_table (s : GameState) (m : Message) (label : Label)
    (ti : List ℤ) (ai : ℕ) (dl : Message → Label) (rs rs1 : RoundState)
    (mp : Message × Bool)
    (hmal : mp.1.isMalicious = true)
    (hedge : rs.gs.graph.hasEdge mp.1.origin mp.1.destination = true)
    (h : processMessage ti ai dl rs mp = Except.ok rs1) :
    calculateScore s m label = specScoreTable s m label ∧
    rs1.attackerSamples = rs.attackerSamples ++
      [(ti, ai, (calculateScore rs.gs mp.1 (suspicionLabelOf mp.2 dl mp.1)).1)] := by
  constructor
  · unfold calculateScore specScoreTable
    rw [neighbors_card_eq_outDegree]
    cases m with
    | mk mo md mb =>
      cases mb <;> cases label <;> simp [Message.isMalicious]
  · exact (processMessage_malicious ti ai dl rs mp rs1 hmal hedge h).1

/-- Witness for claim C1: the malicious message A→B processed on `exRound`,
with the table checked at `exState` and label HIGH. -/
theorem calculateScore_reward_table_witness :
    (exMsgMal.isMalicious = true ∧
     exRound.gs.graph.hasEdge exMsgMal.origin exMsgMal.destination = true ∧
     processMessage [] 0 exDl exRound (exMsgMal, false) = Except.ok exPmMalRes) ∧
    (calculateScore exState exMsgMal Label.HIGH = specScoreTable exState exMsgMal Label.HIGH ∧
     exPmMalRes.attackerSamples = exRound.attackerSamples ++
       [([], 0, (calculateScore exRound.gs exMsgMal (suspicionLabelOf false exDl exMsgMal)).1)]) :=
  ⟨⟨rfl, rfl, rfl⟩,
    calculateScore_reward_table exState exMsgMal Label.HIGH [] 0 exDl exRound exPmMalRes
      (exMsgMal, false) rfl rfl rfl⟩

/-- Claim C10: every processed message whose malicious flag is set — the
attack message or malicious background traffic alike — causes one attacker
training sample `(trafficInfo, attackIndex, attackerReward)` to be emitted
and `lastAttackerScore` to be overwritten with that reward, and across a
round every emitted attacker sample carries the single per-round
`trafficInfo` and `attackIndex`. -/
theorem attacker_samples_per_malicious (ti : List ℤ) (ai : ℕ) (dl : Message → Label)
    (rs rs1 rs2 : RoundState) (mp : Message × Bool) (msgs : List (Message × Bool))
    (hmal : mp.1.isMalicious = true)
    (hedge : rs.gs.graph.hasEdge mp.1.origin mp.1.destination = true)
    (h : processMessage ti ai dl rs mp = Except.ok rs1)
    (hs : processMessages ti ai dl rs msgs = Except.ok rs2) :
    (rs1.attackerSamples = rs.attackerSamples ++
        [(ti, ai, (calculateScore rs.gs mp.1 (suspicionLabelOf mp.2 dl mp.1)).1)] ∧
      rs1.lastAttackerScore = (calculateScore rs.gs mp.1 (suspicionLabelOf mp.2 dl mp.1)).1) ∧
    ∃ tail, rs2.attackerSamples = rs.attackerSamples ++ tail ∧
      ∀ x ∈ tail, x.1 = ti ∧ x.2.1 = ai :=
  ⟨processMessage_malicious ti ai dl rs mp rs1 hmal hedge h,
    processMessages_attribution ti ai dl msgs rs rs2 hs⟩

/-- Witness for claim C10: the malicious message A→B processed on
`exRound`, alone and as a one-message round. -/
theorem attacker_samples_per_malicious_witness :
    (exMsgMal.isMalicious = true ∧
     exRound.gs.graph.hasEdge exMsgMal.origin exMsgMal.destination = true ∧
     processMessage [] 0 exDl exRound (exMsgMal, false) = Except.ok exPmMalRes ∧
     processMessages [] 0 exDl exRound [(exMsgMal, false)] = Except.ok exRunMalRes) ∧
    ((exPmMalRes.attackerSamples = exRound.attackerSamples ++
        [([], 0, (calculateScore exRound.gs exMsgMal (suspicionLabelOf false exDl exMsgMal)).1)] ∧
      exPmMalRes.lastAttackerScore =
        (calculateScore exRound.gs exMsgMal (suspicionLabelOf false exDl exMsgMal)).1) ∧
    ∃ tail, exRunMalRes.attackerSamples = exRound.attackerSamples ++ tail ∧
      ∀ x ∈ tail, x.1 = ([] : List ℤ) ∧ x.2.1 = 0) :=
  ⟨⟨rfl, rfl, rfl, rfl⟩,
    attacker_samples_per_malicious [] 0 exDl exRound exPmMalRes exRunMalRes
      (exMsgMal, false) [(exMsgMal, false)] rfl rfl rfl rfl⟩

/-- Counterexample for claim C9 as stated: in a no-attack round containing
one malicious background message, two attacker training samples are
emitted (the no-op sample plus the per-malicious-message sample), not
exactly one. -/
theorem noAttack_round_training_samples_cex :
    Except.map (fun rs => rs.attackerSamples.length)
      (runRoundNoAttack 5 [] 0 exDl exState [[(exMsgMal, false)]]) = Except.ok 2 := rfl

/-- Claim C9 (amended): in a round where the Attacker returns no attack
message, the zero-reward no-op sample tagged with the last action index of
the attacker action space is emitted, and it is the only attacker sample
of the round provided no processed background message is malicious (each
processed malicious background message adds one further sample). -/
theorem noAttack_round_training_samples (outputSize : ℕ) (ti : List ℤ) (ai : ℕ)
    (dl : Message → Label) (gs : GameState) (queues : List (List (Message × Bool)))
    (hben : ∀ q ∈ queues, ∀ mb ∈ q, mb.1.isMalicious = false) :
    ∃ rs1, runRoundNoAttack outputSize ti ai dl gs queues = Except.ok rs1 ∧
      rs1.attackerSamples = [(ti, outputSize - 1, some 0)] := by
  unfold runRoundNoAttack
  obtain ⟨rs1, h1⟩ := processMessages_ok ti ai dl queues.flatten
    { gs := gs
      attackerSamples := [(ti, outputSize - 1, some 0)]
      defenderSamples := []
      lastAttackerScore := some 0 }
  refine ⟨rs1, h1, ?_⟩
  have hb : ∀ mp ∈ queues.flatten, mp.1.isMalicious = false := by
    intro mp hmp
    rcases List.mem_flatten.mp hmp with ⟨q, hq, hmq⟩
    exact hben q hq mp hmq
  exact processMessages_benign ti ai dl queues.flatten _ rs1 hb h1

/-- Witness for claim C9 (amended): a no-attack round over one benign
message on `exState`. -/
theorem noAttack_round_training_samples_witness :
    (∀ q ∈ [[(exMsgBen, false)]], ∀ mb ∈ q, mb.1.isMalicious = false) ∧
    ∃ rs1, runRoundNoAttack 5 [] 0 exDl exState [[(exMsgBen, false)]] = Except.ok rs1 ∧
      rs1.attackerSamples = [([], 5 - 1, some 0)] :=
  ⟨by decide,
    noAttack_round_training_samples 5 [] 0 exDl exState [[(exMsgBen, false)]] (by decide)⟩

theorem pyListInsert_length (l : List α) (pos : ℕ) (a : α) :
    (pyListInsert l pos a).length = l.length + 1 := by
  unfold pyListInsert
  simp only [List.length_append, List.length_cons, List.length_take, List.length_drop]
  omega

theorem pyListInsert_get (l : List α) (pos : ℕ) (a : α) :
    (pyListInsert l pos a)[insertEffectiveIndex l.length pos]? = some a := by
  unfold pyListInsert insertEffectiveIndex
  have hlen : (l.take pos).length = min pos l.length := List.length_take pos l
  rw [show min pos l.length = (l.take pos).length from hlen.symm]
  rw [List.getElem?_append_right (le_refl _)]
  simp

theorem attackInsertDraws_filter_card (L i : ℕ) (hi : i ∈ specInsertPositions L) :
    ((attackInsertDraws L).filter (fun p => insertEffectiveIndex L p = i)).card
      = if i < L then 1 else 2 := by
  rw [specInsertPositions, Finset.mem_Icc] at hi
  by_cases h : i < L
  · rw [if_pos h]
    have heq : (attackInsertDraws L).filter (fun p => insertEffectiveIndex L p = i) = {i} := by
      ext p
      simp only [attackInsertDraws, insertEffectiveIndex, Finset.mem_filter, Finset.mem_Icc,
        Finset.mem_singleton]
      omega
    rw [heq]
    exact Finset.card_singleton i
  · rw [if_neg h]
    have heq : (attackInsertDraws L).filter (fun p => insertEffectiveIndex L p = i)
        = {L, L + 1} := by
      ext p
      simp only [attackInsertDraws, insertEffectiveIndex, Finset.mem_filter, Finset.mem_Icc,
        Finset.mem_insert, Finset.mem_singleton]
      omega
    rw [heq]
    rw [Finset.card_insert_of_not_mem (by simp)]
    rfl

/-- Counterexample for claim C5 as stated: for a queue of length 1 the
draw support `[0, 2]` of the code exceeds the `[0, 1]` of the spec, and the effective
insertion index 1 (the very end) arises from two draws while index 0 arises
from one, so the positions are not equally likely. -/
theorem attack_insert_position_cex :
    (2 ∈ attackInsertDraws 1 ∧ 2 ∉ specInsertPositions 1) ∧
    ((attackInsertDraws 1).filter (fun p => insertEffectiveIndex 1 p = 1)).card = 2 ∧
    ((attackInsertDraws 1).filter (fun p => insertEffectiveIndex 1 p = 0)).card = 1 := by
  decide

/-- Claim C5 (amended): the insertion position is drawn uniformly from
`[0, queueLength + 1]` (the code calls `randint(0, len(queue) + 1)`); list
insertion clamps the position, so every index of `[0, queueLength]` is a
possible landing slot, interior indices arise from exactly one draw each
while the final slot arises from exactly two, making the very end twice as
likely as any single interior position. -/
theorem attack_insert_position_distribution (L pos i : ℕ) (q : List Message) (a : Message)
    (hq : q.length = L)
    (hpos : pos ∈ attackInsertDraws L)
    (hi : i ∈ specInsertPositions L) :
    attackInsertDraws L = Finset.Icc 0 (L + 1) ∧
    (pyListInsert q pos a).length = L + 1 ∧
    (pyListInsert q pos a)[insertEffectiveIndex L pos]? = some a ∧
    (∃ p ∈ attackInsertDraws L, insertEffectiveIndex L p = i) ∧
    ((attackInsertDraws L).filter (fun p => insertEffectiveIndex L p = i)).card
      = if i < L then 1 else 2 := by
  subst hq
  rw [specInsertPositions, Finset.mem_Icc] at hi
  refine ⟨rfl, pyListInsert_length q pos a, pyListInsert_get q pos a, ?_, ?_⟩
  · refine ⟨i, ?_, ?_⟩
    · rw [attackInsertDraws, Finset.mem_Icc]
      omega
    · rw [insertEffectiveIndex]
      omega
  · exact attackInsertDraws_filter_card q.length i
      (by rw [specInsertPositions, Finset.mem_Icc]; omega)

/-- Witness for claim C5 (amended) at queue length 1, draw 2, index 1. -/
theorem attack_insert_position_distribution_witness :
    ([exMsgBen].length = 1 ∧ 2 ∈ attackInsertDraws 1 ∧ 1 ∈ specInsertPositions 1) ∧
    (attackInsertDraws 1 = Finset.Icc 0 (1 + 1) ∧
    (pyListInsert [exMsgBen] 2 exMsgMal).length = 1 + 1 ∧
    (pyListInsert [exMsgBen] 2 exMsgMal)[insertEffectiveIndex 1 2]? = some exMsgMal ∧
    (∃ p ∈ attackInsertDraws 1, insertEffectiveIndex 1 p = 1) ∧
    ((attackInsertDraws 1).filter (fun p => insertEffectiveIndex 1 p = 1)).card
      = if 1 < 1 then 1 else 2) :=
  ⟨⟨by decide, by decide, by decide⟩,
    attack_insert_position_distribution 1 2 1 [exMsgBen] exMsgMal (by decide)
      (by decide) (by decide)⟩

/-- Counterexample for claim C6 as stated: on a two-row dataset the row
draw support `randint(1, len - 1) = {1}` omits record 0, so not every
dataset record can be chosen, contradicting "every dataset record is
equally likely". -/
theorem background_traffic_sampling_cex :
    0 < exDataset.length ∧ 0 ∉ rowIndexDraws exDataset.length ∧
    rowIndexDraws exDataset.length ≠ specRecordIndices exDataset.length := by
  decide

/-- Claim C6 (amended): the per-round count is drawn uniformly from
`[1, 30]`; each template record index is drawn uniformly (with
replacement) from `[1, datasetLength − 1]` — record 0 is never sampled;
the origin is overridden with a uniformly chosen graph node and the
destination with a uniformly chosen node having an existing edge from that
origin, the message inheriting the malicious flag of the drawn row. -/
theorem background_traffic_sampling (g : DiGraph) (dataset : List Row)
    (d : BgDraw) (m : Message) (k : ℕ)
    (hleg : legalBgDraw g dataset.length d)
    (hk : k ∈ numBackgroundDraws)
    (hm : bgMessageOfDraw g dataset d = some m) :
    (1 ≤ k ∧ k ≤ MAX_BACKGROUND_TRAFFIC_MESSAGES) ∧
    (0 ∉ rowIndexDraws dataset.length ∧
      1 ≤ d.rowIndex ∧ d.rowIndex ≤ dataset.length - 1) ∧
    m.origin ∈ g.nodes ∧
    g.hasEdge m.origin m.destination = true ∧
    ∃ row, dataset[d.rowIndex]? = some row ∧ m.malicious = row.malicious := by
  rw [numBackgroundDraws, Finset.mem_Icc] at hk
  obtain ⟨hrowIdx, -⟩ := hleg
  rw [rowIndexDraws, Finset.mem_Icc] at hrowIdx
  refine ⟨hk, ⟨?_, hrowIdx⟩, ?_⟩
  · rw [rowIndexDraws, Finset.mem_Icc]
    omega
  · unfold bgMessageOfDraw at hm
    split at hm
    · rename_i row newOrigin hrow hnode
      split at hm
      · rename_i newDest hdest
        have hmsg := Option.some.inj hm
        subst hmsg
        have hdmem := List.getElem?_mem hdest
        rw [List.mem_filter] at hdmem
        exact ⟨List.getElem?_mem hnode, hdmem.2, row, hrow, rfl⟩
      · cases hm
    · cases hm

/-- Witness for claim C6 (amended): the draw `exDraw` on `exGraph` with the
two-row dataset `exDataset` produces the malicious message A→B. -/
theorem background_traffic_sampling_witness :
    (legalBgDraw exGraph exDataset.length exDraw ∧ 1 ∈ numBackgroundDraws ∧
     bgMessageOfDraw exGraph exDataset exDraw = some exMsgMal) ∧
    ((1 ≤ 1 ∧ 1 ≤ MAX_BACKGROUND_TRAFFIC_MESSAGES) ∧
    (0 ∉ rowIndexDraws exDataset.length ∧
      1 ≤ exDraw.rowIndex ∧ exDraw.rowIndex ≤ exDataset.length - 1) ∧
    exMsgMal.origin ∈ exGraph.nodes ∧
    exGraph.hasEdge exMsgMal.origin exMsgMal.destination = true ∧
    ∃ row, exDataset[exDraw.rowIndex]? = some row ∧ exMsgMal.malicious = row.malicious) :=
  ⟨⟨⟨by decide, by decide⟩, by decide, rfl⟩,
    background_traffic_sampling exGraph exDataset exDraw exMsgMal 1
      ⟨by decide, by decide⟩ (by decide) rfl⟩

theorem sigmoidTerm_mono (c : ℝ) (hc : 0 < c) :
    Monotone (fun n : ℝ => 1 / (1 + Real.exp (-c * n))) := by
  intro x y hxy
  have h1 : Real.exp (-c * y) ≤ Real.exp (-c * x) :=
    Real.exp_le_exp.mpr (by nlinarith)
  have h2 : (0 : ℝ) < 1 + Real.exp (-c * y) := by positivity
  exact one_div_le_one_div_of_le h2 (by linarith)

theorem sigmoidTerm_tendsto (c : ℝ) (hc : 0 < c) :
    Filter.Tendsto (fun n : ℝ => 1 / (1 + Real.exp (-c * n))) Filter.atTop (nhds 1) := by
  have h1 : Filter.Tendsto (fun n : ℝ => -c * n) Filter.atTop Filter.atBot :=
    Filter.Tendsto.const_mul_atTop_of_neg (by linarith) Filter.tendsto_id
  have h2 : Filter.Tendsto (fun n : ℝ => Real.exp (-c * n)) Filter.atTop (nhds 0) :=
    Real.tendsto_exp_atBot.comp h1
  have h3 : Filter.Tendsto (fun n : ℝ => 1 + Real.exp (-c * n)) Filter.atTop (nhds 1) := by
    have h4 := Filter.Tendsto.const_add (1 : ℝ) h2
    simpa using h4
  have h5 := Filter.Tendsto.inv₀ h3 one_ne_zero
  simpa [one_div] using h5

/-- Claim C8: the inspection probability `p(n) = 2.195 − σ(0.75n) − σ(0.05n)`
satisfies `p(0) = 1.195`, is non-increasing on `n ≥ 0`, and tends to 0.195
as `n` grows. -/
theorem inspection_chance_properties :
    calculateInspectionChance 0 = 1.195 ∧
    AntitoneOn calculateInspectionChance (Set.Ici (0 : ℝ)) ∧
    Filter.Tendsto calculateInspectionChance Filter.atTop (nhds 0.195) := by
  refine ⟨?_, ?_, ?_⟩
  · unfold calculateInspectionChance
    norm_num [Real.exp_zero]
  · intro x hx y hy hxy
    have h1 := sigmoidTerm_mono 0.75 (by norm_num) hxy
    have h2 := sigmoidTerm_mono 0.05 (by norm_num) hxy
    dsimp only at h1 h2
    unfold calculateInspectionChance
    linarith
  · have h1 := sigmoidTerm_tendsto 0.75 (by norm_num)
    have h2 := sigmoidTerm_tendsto 0.05 (by norm_num)
    have h3 := Filter.Tendsto.sub (Filter.Tendsto.const_sub (2.195 : ℝ) h1) h2
    have h4 : (2.195 : ℝ) - 1 - 1 = 0.195 := by norm_num
    rw [h4] at h3
    exact h3

end GameEngine
